import Mathlib

/-!
Verification development for the fMRI batch drivers of
`analysis_code/fMRI/P6/batchFEAT_main.py` and `analysis_code/fMRI/P8/batchGLM1.py`.

The Python drivers are shallowly embedded:
* external process execution is an oracle `String → Int × String` mapping the
  (untokenized) command line to its exit status and captured standard output;
  `shlex.split` tokenization is absorbed into this oracle boundary since no
  property depends on tokenization;
* file-system effects are recorded as an ordered list of `Event`s;
* the ambient current working directory is threaded explicitly;
* Python exceptions become `Except` / `Option` error values, tagged by raise site.
-/

/-- Model of `subprocess.CompletedProcess`: the command that ran, its exit
status, and its standard output (`some` only when `stdout=subprocess.PIPE`
was requested, mirroring Python where `.stdout` is `None` otherwise). -/
structure CompletedProcess where
  cmd : String
  returncode : Int
  stdout : Option String
deriving DecidableEq

/-- Model of `run_command(scommand, capture_output)` shared by both drivers:
run the command synchronously, and raise (`.error`, carrying the completed
process, as the Python `RuntimeError` message carries the `CompletedProcess`
repr) exactly when the exit status is non-zero. -/
def run_command (oracle : String → Int × String) (scommand : String)
    (captureOutput : Bool) : Except CompletedProcess CompletedProcess :=
  let r := oracle scommand
  let pr : CompletedProcess := ⟨scommand, r.1, if captureOutput then some r.2 else none⟩
  if pr.returncode ≠ 0 then .error pr else .ok pr

/-- Numeric value of a list of decimal digit characters. -/
def digitsVal (l : List Char) : Nat :=
  l.foldl (fun acc c => 10 * acc + c.toNat - '0'.toNat) 0

/-- Strip leading and trailing whitespace, as Python `int(..)` does before
parsing. -/
def trimChars (l : List Char) : List Char :=
  ((l.dropWhile Char.isWhitespace).reverse.dropWhile Char.isWhitespace).reverse

/-- Model of Python `int(s)` on the helper's captured output: optional
surrounding whitespace, an optional sign, then a nonempty digit string. -/
def parsePyInt (s : String) : Option Int :=
  let t := trimChars s.toList
  match t with
  | '+' :: ds => if ds ≠ [] ∧ ds.all Char.isDigit then some (digitsVal ds) else none
  | '-' :: ds => if ds ≠ [] ∧ ds.all Char.isDigit then some (-(digitsVal ds : Int)) else none
  | ds => if ds ≠ [] ∧ ds.all Char.isDigit then some (digitsVal ds) else none

/-- Model of `os.path.join a b` for the shapes this code produces (the second
component never starts with a separator). -/
def pjoin (a b : String) : String :=
  if a = "" then b
  else if a.toList.getLast? = some '/' then a ++ b
  else a ++ "/" ++ b

/-- `s[-2:]`-style suffix: the last `n` characters of `s` (all of `s` when it
is shorter), as Python slicing behaves. -/
def takeLastStr (n : Nat) (s : String) : String :=
  String.mk (s.toList.drop (s.toList.length - n))

/-- Python text-file line iteration (`for line in f`): split after every
newline, keeping the newline on each line; a trailing chunk without a final
newline is still a line; empty content yields no lines. -/
def splitLines : List Char → List (List Char)
  | [] => []
  | c :: rest =>
    if c = '\n' then ['\n'] :: splitLines rest
    else
      match splitLines rest with
      | [] => [[c]]
      | l :: ls => (c :: l) :: ls

/-- Python `s.split('\x7bnothing\x7d')`-free newline split: split on `'\n'`,
dropping the separators ("a\nb\n" ↦ ["a","b",""]), used to view a template
document as its lines for the line-oriented `re.sub` model. -/
def splitNl : List Char → List (List Char)
  | [] => [[]]
  | c :: rest =>
    if c = '\n' then [] :: splitNl rest
    else
      match splitNl rest with
      | [] => [[c]]
      | l :: ls => (c :: l) :: ls

/-- Inverse of `splitNl`: re-join lines with `'\n'`. -/
def joinLines (ls : List (List Char)) : List Char :=
  (ls.intersperse ['\n']).flatten

/-! ### Model of Python `str.format(**params)` (named-placeholder materialization)

`fill_in_template(template, params)` in `batchGLM1.py` is
`template.format(**params)`.  The model covers the simple replacement fields
the repository's templates use: `{name}` looks up `name` in the parameter
mapping, `{{`/`}}` are brace escapes, an unclosed `{` or a stray `}` is a
format error, and a field whose key is absent raises (Python `KeyError`,
here `FmtErr.missingKey`).  Conversion/format-spec suffixes and
attribute/index access inside fields are not distinguished: the full text
between the braces is the lookup key. -/

/-- A parsed template item: one literal character or a named field. -/
inductive TItem where
  | lit (c : Char)
  | field (name : String)
deriving DecidableEq

/-- Errors of template materialization. -/
inductive FmtErr where
  | missingKey (k : String)
  | unmatchedBrace
deriving DecidableEq

/-- Template scanner; the first argument is `none` outside a replacement
field and `some acc` while reading a field name (accumulated reversed). -/
def parseFmtGo : Option (List Char) → List Char → Except FmtErr (List TItem)
  | none, [] => .ok []
  | none, '{' :: '{' :: rest => (fun ts => TItem.lit '{' :: ts) <$> parseFmtGo none rest
  | none, '{' :: rest => parseFmtGo (some []) rest
  | none, '}' :: '}' :: rest => (fun ts => TItem.lit '}' :: ts) <$> parseFmtGo none rest
  | none, '}' :: _ => .error .unmatchedBrace
  | none, c :: rest => (fun ts => TItem.lit c :: ts) <$> parseFmtGo none rest
  | some _, [] => .error .unmatchedBrace
  | some acc, '}' :: rest =>
      (fun ts => TItem.field (String.mk acc.reverse) :: ts) <$> parseFmtGo none rest
  | some acc, c :: rest => parseFmtGo (some (c :: acc)) rest

/-- Dict lookup for the parameter mapping (`params` is a Python dict; its
unique keys make first-match association-list lookup faithful). -/
def lookupParam (n : String) : List (String × String) → Option String
  | [] => none
  | (k, v) :: rest => if k = n then some v else lookupParam n rest

/-- Render parsed template items against the parameter mapping, failing at
the first field whose key is missing. -/
def renderItems : List TItem → List (String × String) → Except FmtErr (List Char)
  | [], _ => .ok []
  | .lit c :: rest, p => (fun t => c :: t) <$> renderItems rest p
  | .field n :: rest, p =>
    match lookupParam n p with
    | none => .error (.missingKey n)
    | some v => (fun t => v.toList ++ t) <$> renderItems rest p

/-- Model of `fill_in_template(template, params)` = `template.format(**params)`. -/
def fill_in_template (template : List Char) (params : List (String × String)) :
    Except FmtErr (List Char) :=
  match parseFmtGo none template with
  | .error e => .error e
  | .ok items => renderItems items params

/-- The named placeholders occurring in a template (empty on a malformed
template). -/
def placeholdersOf (template : List Char) : List String :=
  match parseFmtGo none template with
  | .error _ => []
  | .ok items => items.filterMap (fun i => match i with | .field n => some n | _ => none)

/-! ### Model of the `re.sub` pattern-rewrite materialization (P6 driver)

Every rewrite in `batchFEAT_main.py` uses a pattern of one of two shapes:

* quoted:   `(set <key>(..) ").*"`   replaced by `\1<value>"`,
* unquoted: `(set <key>(..) ).*`     replaced by `\g<1><value>`,

i.e. a literal key (group 1, the quoted variant's key ending in `"`),
followed by a greedy `.*` that cannot cross a newline, the quoted variant
additionally requiring a closing `"` (so the greedy match ends at the last
`"` of the line).  A document is modeled as its newline-free lines
(`splitNl`); `re.sub` replaces the leftmost match per line, which for these
shapes is the first occurrence of the literal key, and at most one match per
line can exist (the match extends to the end of the line or to its last
quote, after which the rule cannot match again). -/

/-- A rewrite rule: the literal text of capture group 1 and whether the
pattern demands a closing quote after the greedy `.*`. -/
structure Rule where
  key : List Char
  quoted : Bool
deriving DecidableEq

/-- Index of the first occurrence of `key` as a contiguous sublist. -/
def firstOcc (key : List Char) : List Char → Option Nat
  | [] => if key.isPrefixOf ([] : List Char) then some 0 else none
  | c :: rest =>
    if key.isPrefixOf (c :: rest) then some 0
    else (firstOcc key rest).map (· + 1)

/-- Split a line around its last `'"'`: `some (before, after)` with
`line = before ++ '"' :: after` and no `'"'` in `after`; `none` when the
line has no quote. -/
def splitAtLastQuote : List Char → Option (List Char × List Char)
  | [] => none
  | c :: rest =>
    match splitAtLastQuote rest with
    | some (b, a) => some (c :: b, a)
    | none => if c = '"' then some ([], rest) else none

/-- The captured `.*` value of a rule on one line (the quoted path up to the
line's last quote, or the unquoted rest of the line), mirroring
`re.search(..).group(..)` extraction such as the `PD_dir="(.*)"` read. -/
def extractLine (r : Rule) (line : List Char) : Option (List Char) :=
  match firstOcc r.key line with
  | none => none
  | some i =>
    let t := line.drop (i + r.key.length)
    if r.quoted then
      match splitAtLastQuote t with
      | none => none
      | some (b, _) => some b
    else some t

/-- Whether the rule's pattern matches somewhere in the line. -/
def lineMatches (r : Rule) (line : List Char) : Bool :=
  (extractLine r line).isSome

/-- `re.sub` of one rule on one line: replace the captured greedy region
after the first key occurrence with `repl` (re-closing the quote for quoted
rules); a non-matching line is returned unchanged. -/
def applyRuleLine (r : Rule) (repl : List Char) (line : List Char) : List Char :=
  match firstOcc r.key line with
  | none => line
  | some i =>
    let t := line.drop (i + r.key.length)
    if r.quoted then
      match splitAtLastQuote t with
      | none => line
      | some (_, a) => line.take i ++ r.key ++ repl ++ '"' :: a
    else line.take i ++ r.key ++ repl

/-- `re.sub` of one rule over a whole document (list of lines). -/
def applyRule (r : Rule) (repl : List Char) (doc : List (List Char)) : List (List Char) :=
  doc.map (applyRuleLine r repl)

/-- `re.search`-style extraction over a document: captured value of the
first line the rule matches. -/
def extractDoc (r : Rule) : List (List Char) → Option (List Char)
  | [] => none
  | l :: ls =>
    match extractLine r l with
    | some v => some v
    | none => extractDoc r ls

/-! ### Observable effects and per-run step results -/

/-- Observable side effects of the drivers, in program order:
file writes (`open(..,"w").write`), `shutil.copy`, `os.makedirs`,
subprocess invocation, and `os.chdir`. -/
inductive Event where
  | write (path : String) (content : List Char)
  | copyFile (src dst : String)
  | mkdirP (dir : String)
  | runCmd (cmd : String)
  | chdir (dir : String)
deriving DecidableEq

/-- Result of one per-run step (or of a whole loop): the effects emitted in
order, the first uncaught error if one was raised (aborting everything
after it), and the process working directory afterwards. -/
structure StepRes (ε : Type) where
  events : List Event
  err : Option ε
  cwdAfter : String
deriving DecidableEq

/-! ### P6 driver: `batchFEAT_main.py`

Module-level script: read `directories.ini` (its `PD_dir="..."` value, made
absolute, is the `structuarlDir` configuration field below), read the batch
template `design_template_main.fsf`, substitute the structural-image path
into its `highres_files` line, write the result back to the same template
file, then loop over the lines of `to_process_main.txt`. -/

/-- Static configuration of one P6 batch invocation.  `template0` is the
on-disk content of `design_template_main.fsf` before the batch starts;
`oracle` supplies each subprocess's exit status and captured output;
`trFormat` abstracts `"\x7b:.6f\x7d".format(float(s))` (binary floating
point parse-and-format, whose numeric value no claim depends on), returning
`none` when Python `float(s)` would raise `ValueError`. -/
structure P6Cfg where
  workingDir : String
  structuarlDir : String
  template0 : List Char
  oracle : String → Int × String
  trFormat : String → Option String

/-- Errors of one P6 per-run iteration, tagged by raise site; all are the
single Python `RuntimeError`/`ValueError` distinguished by where they were
raised. -/
inductive P6Err where
  | volCmd (p : CompletedProcess)
  | volParse (s : String)
  | trCmd (p : CompletedProcess)
  | trParse (s : String)
  | sliceCmd (p : CompletedProcess)
  | featCmd (p : CompletedProcess)
deriving DecidableEq

/-- `cur_nifii = inputFilename[0:2]`. -/
def p6Cur (line : List Char) : String := String.mk (line.take 2)

/-- `block_dir = os.path.join(workingDir, "run" + cur_nifii)`. -/
def p6BlockDir (cfg : P6Cfg) (line : List Char) : String :=
  pjoin cfg.workingDir ("run" ++ p6Cur line)

/-- `block_design_path = os.path.join(block_dir, "block" + cur + "_design.fsf")`. -/
def p6BlockDesignPath (cfg : P6Cfg) (line : List Char) : String :=
  pjoin (p6BlockDir cfg line) ("block" ++ p6Cur line ++ "_design.fsf")

/-- `input_file_root = os.path.join(workingDir, cur_nifii)`. -/
def p6InputRoot (cfg : P6Cfg) (line : List Char) : String :=
  pjoin cfg.workingDir (p6Cur line)

/-- The `getNumVolume.sh` helper invocation for one run. -/
def p6VolCmdOf (cfg : P6Cfg) (line : List Char) : String :=
  "sh getNumVolume.sh " ++ p6InputRoot cfg line ++ ".nii.gz"

/-- The `getTRDuration.sh` helper invocation for one run. -/
def p6TRCmdOf (cfg : P6Cfg) (line : List Char) : String :=
  "sh getTRDuration.sh " ++ p6InputRoot cfg line ++ ".nii.gz"

/-- The `makeSlicetimings.sh` invocation for one run (`RAWFILEROOT` is the
constant `"BIYUJADEHE"`). -/
def p6SliceCmdOf (cfg : P6Cfg) (line : List Char) (numVolume : Int) : String :=
  "sh makeSlicetimings.sh ../../RawMRIData/TEMP2A_P6_TC/*BIYUJADEHE.00" ++ p6Cur line
    ++ ".0*.IMA " ++ p6BlockDir cfg line ++ "/slicetimes.txt " ++ toString numVolume

/-- The `feat "<config>"` invocation for one run. -/
def p6FeatCmdOf (cfg : P6Cfg) (line : List Char) : String :=
  "feat \"" ++ p6BlockDesignPath cfg line ++ "\""

/-- `template = os.path.join(workingDir, "design_template_main.fsf")`. -/
def p6TemplatePath (cfg : P6Cfg) : String :=
  pjoin cfg.workingDir "design_template_main.fsf"

/-- The `to_process_main.txt` manifest path. -/
def p6ToProcessPath (cfg : P6Cfg) : String :=
  pjoin cfg.workingDir "to_process_main.txt"

/-- The rewrite rule of `re.sub(r'(set highres_files\(1\) ").*"', ...)`. -/
def highresRule : Rule := ⟨"set highres_files(1) \"".toList, true⟩

/-- The rewrite rule of `re.sub(r'(set feat_files\(1\) ").*"', ...)`. -/
def featFilesRule : Rule := ⟨"set feat_files(1) \"".toList, true⟩

/-- The rewrite rule of `re.sub(r'(set fmri\(outputdir\) ").*"', ...)`. -/
def outputdirRule : Rule := ⟨"set fmri(outputdir) \"".toList, true⟩

/-- The rewrite rule of `re.sub(r'(set fmri\(st_file\) ").*"', ...)`. -/
def stFileRule : Rule := ⟨"set fmri(st_file) \"".toList, true⟩

/-- The rewrite rule of `re.sub(r"(set fmri\(npts\) ).*", ...)`. -/
def nptsRule : Rule := ⟨"set fmri(npts) ".toList, false⟩

/-- The rewrite rule of `re.sub(r"(set fmri\(tr\) ).*", ...)`. -/
def trRule : Rule := ⟨"set fmri(tr) ".toList, false⟩

/-- The structural-reference value substituted into the template:
`os.path.join(structuarlDir, STRUCTURALFILENAME)`. -/
def p6HighresRepl (cfg : P6Cfg) : String :=
  pjoin cfg.structuarlDir "final_structural"

/-- The batch-level template after the `highres_files` rewrite; this is the
content written back to `design_template_main.fsf` and the content every
run's `shutil.copy` then duplicates and reads back. -/
def p6FsfTemplate (cfg : P6Cfg) : List (List Char) :=
  applyRule highresRule (p6HighresRepl cfg).toList (splitNl cfg.template0)

/-- One iteration of the P6 run loop, started (as the loop invariant
guarantees) with the current working directory at `cfg.workingDir`:
`makedirs`; `shutil.copy` of the template to the per-run config path; the
three path rewrites on the copied text; `getNumVolume.sh` + `int(..)`;
the `npts` rewrite; `getTRDuration.sh` + float format; the `tr` rewrite;
write of the materialized config; `makeSlicetimings.sh`; `chdir` into the
run directory; `feat`; `chdir` back.  An exception aborts the iteration
where it is raised, leaving the working directory wherever it was. -/
def p6Step (cfg : P6Cfg) (line : List Char) : StepRes P6Err :=
  let blockDir := p6BlockDir cfg line
  let bdp := p6BlockDesignPath cfg line
  let ev0 := [Event.mkdirP blockDir, Event.copyFile (p6TemplatePath cfg) bdp]
  let d1 := applyRule featFilesRule (p6InputRoot cfg line).toList (p6FsfTemplate cfg)
  let d2 := applyRule outputdirRule
    (pjoin blockDir (p6Cur line ++ "-preprocess.feat")).toList d1
  let d3 := applyRule stFileRule (pjoin blockDir "slicetimes.txt").toList d2
  match run_command cfg.oracle (p6VolCmdOf cfg line) true with
  | .error p => ⟨ev0 ++ [.runCmd (p6VolCmdOf cfg line)], some (.volCmd p), cfg.workingDir⟩
  | .ok pr =>
    match parsePyInt (pr.stdout.getD "") with
    | none =>
      ⟨ev0 ++ [.runCmd (p6VolCmdOf cfg line)], some (.volParse (pr.stdout.getD "")),
        cfg.workingDir⟩
    | some numVolume =>
      let d4 := applyRule nptsRule (toString numVolume).toList d3
      match run_command cfg.oracle (p6TRCmdOf cfg line) true with
      | .error p =>
        ⟨ev0 ++ [.runCmd (p6VolCmdOf cfg line), .runCmd (p6TRCmdOf cfg line)],
          some (.trCmd p), cfg.workingDir⟩
      | .ok pr2 =>
        match cfg.trFormat (pr2.stdout.getD "") with
        | none =>
          ⟨ev0 ++ [.runCmd (p6VolCmdOf cfg line), .runCmd (p6TRCmdOf cfg line)],
            some (.trParse (pr2.stdout.getD "")), cfg.workingDir⟩
        | some trStr =>
          let d5 := applyRule trRule trStr.toList d4
          let evW := ev0 ++ [Event.runCmd (p6VolCmdOf cfg line),
            Event.runCmd (p6TRCmdOf cfg line), Event.write bdp (joinLines d5)]
          match run_command cfg.oracle (p6SliceCmdOf cfg line numVolume) false with
          | .error p =>
            ⟨evW ++ [.runCmd (p6SliceCmdOf cfg line numVolume)], some (.sliceCmd p),
              cfg.workingDir⟩
          | .ok _ =>
            match run_command cfg.oracle (p6FeatCmdOf cfg line) false with
            | .error p =>
              ⟨evW ++ [.runCmd (p6SliceCmdOf cfg line numVolume), .chdir blockDir,
                .runCmd (p6FeatCmdOf cfg line)], some (.featCmd p), blockDir⟩
            | .ok _ =>
              ⟨evW ++ [.runCmd (p6SliceCmdOf cfg line numVolume), .chdir blockDir,
                .runCmd (p6FeatCmdOf cfg line), .chdir cfg.workingDir], none,
                cfg.workingDir⟩

/-- The P6 run loop over the manifest lines: each iteration's effects are
appended; the first raised error stops the loop (the script has no
per-run exception handling). -/
def p6Loop (cfg : P6Cfg) : List (List Char) → StepRes P6Err
  | [] => ⟨[], none, cfg.workingDir⟩
  | l :: ls =>
    let s := p6Step cfg l
    match s.err with
    | some e => ⟨s.events, some e, s.cwdAfter⟩
    | none =>
      let t := p6Loop cfg ls
      ⟨s.events ++ t.events, t.err, t.cwdAfter⟩

/-- The whole P6 batch on the manifest file's content: first the batch-level
template rewrite is written back to `design_template_main.fsf` itself, then
the per-line run loop executes. -/
def p6Batch (cfg : P6Cfg) (manifest : List Char) : StepRes P6Err :=
  let r := p6Loop cfg (splitLines manifest)
  ⟨Event.write (p6TemplatePath cfg) (joinLines (p6FsfTemplate cfg)) :: r.events,
    r.err, r.cwdAfter⟩

/-! ### P8 driver: `batchGLM1.py` (`session_GLM` and `session_GLM_CLI`) -/

/-- Static configuration of one P8 `session_GLM` invocation: the working
directory, the content of `GLM1_template.fsf`, and the subprocess oracle. -/
structure P8Cfg where
  workingDir : String
  template : List Char
  oracle : String → Int × String

/-- Errors of one P8 per-run iteration, tagged by raise site. -/
inductive P8Err where
  | volCmd (p : CompletedProcess)
  | volParse (s : String)
  | fmt (e : FmtErr)
  | featCmd (p : CompletedProcess)
deriving DecidableEq

/-- `curRun = runDir[-2:]`. -/
def p8Cur (runDir : String) : String := takeLastStr 2 runDir

/-- `params["input_feat_file"] = os.path.join(runDir, curRun + "-preprocess.feat", "denoised_data.nii.gz")`. -/
def p8InputFeat (runDir : String) : String :=
  pjoin (pjoin runDir (p8Cur runDir ++ "-preprocess.feat")) "denoised_data.nii.gz"

/-- The `getNumVolume.sh` helper invocation for one run. -/
def p8VolCmdOf (runDir : String) : String :=
  "sh getNumVolume.sh " ++ p8InputFeat runDir

/-- `blockGLMPath = os.path.join(runDir, "block" + curRun + "_GLM1.fsf")`. -/
def p8BlockPath (runDir : String) : String :=
  pjoin runDir ("block" ++ p8Cur runDir ++ "_GLM1.fsf")

/-- The `feat "<config>"` invocation for one run. -/
def p8FeatCmdOf (runDir : String) : String :=
  "feat \"" ++ p8BlockPath runDir ++ "\""

/-- One explanatory-variable file path:
`os.path.join(workingDir, "EVfiles/GLM1_run" + curRun + "_" + name)`. -/
def p8EVPath (cfg : P8Cfg) (cur name : String) : String :=
  pjoin cfg.workingDir ("EVfiles/GLM1_run" ++ cur ++ "_" ++ name)

/-- The per-run `params` dict of `session_GLM`, in source order. -/
def p8Params (cfg : P8Cfg) (runDir cur : String) (numVolumes : Int) :
    List (String × String) :=
  [("input_feat_file", p8InputFeat runDir),
   ("numVolumes", toString numVolumes),
   ("image0WMplusPath", p8EVPath cfg cur "image0_WMplus.txt"),
   ("image0WMminusPath", p8EVPath cfg cur "image0_WMminus.txt"),
   ("image1WMplusPath", p8EVPath cfg cur "image1_WMplus.txt"),
   ("image1WMminusPath", p8EVPath cfg cur "image1_WMminus.txt"),
   ("image2WMplusPath", p8EVPath cfg cur "image2_WMplus.txt"),
   ("image2WMminusPath", p8EVPath cfg cur "image2_WMminus.txt"),
   ("image3WMplusPath", p8EVPath cfg cur "image3_WMplus.txt"),
   ("image3WMminusPath", p8EVPath cfg cur "image3_WMminus.txt"),
   ("image4WMplusPath", p8EVPath cfg cur "image4_WMplus.txt"),
   ("image4WMminusPath", p8EVPath cfg cur "image4_WMminus.txt"),
   ("image5WMplusPath", p8EVPath cfg cur "image5_WMplus.txt"),
   ("image5WMminusPath", p8EVPath cfg cur "image5_WMminus.txt"),
   ("image6WMplusPath", p8EVPath cfg cur "image6_WMplus.txt"),
   ("image6WMminusPath", p8EVPath cfg cur "image6_WMminus.txt"),
   ("image7WMplusPath", p8EVPath cfg cur "image7_WMplus.txt"),
   ("image7WMminusPath", p8EVPath cfg cur "image7_WMminus.txt"),
   ("image8WMplusPath", p8EVPath cfg cur "image8_WMplus.txt"),
   ("image8WMminusPath", p8EVPath cfg cur "image8_WMminus.txt"),
   ("image9WMplusPath", p8EVPath cfg cur "image9_WMplus.txt"),
   ("image9WMminusPath", p8EVPath cfg cur "image9_WMminus.txt"),
   ("norespPath", p8EVPath cfg cur "noresponses.txt"),
   ("testarraypostcuePath", p8EVPath cfg cur "testarraypostcue.txt"),
   ("testarrayretrocuePath", p8EVPath cfg cur "testarrayretrocue.txt"),
   ("memoryarrayretrocuePath", p8EVPath cfg cur "memoryarrayretrocue.txt")]

/-- One iteration of the `session_GLM` run loop, entered with the working
directory at `cwd` (Python saves `curDir = os.getcwd()` just before the
tool invocation): `getNumVolume.sh` + `int(..)`; the params dict;
`fill_in_template`; write of the materialized config; `chdir` into the run
directory; `feat` (with output capture); `chdir` back to the saved
directory.  An exception aborts the iteration where it is raised, leaving
the working directory wherever it was. -/
def p8Step (cfg : P8Cfg) (cwd runDir : String) : StepRes P8Err :=
  let cur := p8Cur runDir
  match run_command cfg.oracle (p8VolCmdOf runDir) true with
  | .error p => ⟨[.runCmd (p8VolCmdOf runDir)], some (.volCmd p), cwd⟩
  | .ok pr =>
    match parsePyInt (pr.stdout.getD "") with
    | none => ⟨[.runCmd (p8VolCmdOf runDir)], some (.volParse (pr.stdout.getD "")), cwd⟩
    | some numVolumes =>
      match fill_in_template cfg.template (p8Params cfg runDir cur numVolumes) with
      | .error e => ⟨[.runCmd (p8VolCmdOf runDir)], some (.fmt e), cwd⟩
      | .ok doc =>
        let bp := p8BlockPath runDir
        match run_command cfg.oracle (p8FeatCmdOf runDir) true with
        | .error p =>
          ⟨[.runCmd (p8VolCmdOf runDir), .write bp doc, .chdir runDir,
            .runCmd (p8FeatCmdOf runDir)], some (.featCmd p), runDir⟩
        | .ok _ =>
          ⟨[.runCmd (p8VolCmdOf runDir), .write bp doc, .chdir runDir,
            .runCmd (p8FeatCmdOf runDir), .chdir cwd], none, cwd⟩

/-- The `session_GLM` run loop over the input run folders. -/
def p8Loop (cfg : P8Cfg) (cwd : String) : List String → StepRes P8Err
  | [] => ⟨[], none, cwd⟩
  | r :: rs =>
    let s := p8Step cfg cwd r
    match s.err with
    | some e => ⟨s.events, some e, s.cwdAfter⟩
    | none =>
      let t := p8Loop cfg s.cwdAfter rs
      ⟨s.events ++ t.events, t.err, t.cwdAfter⟩

/-- `session_GLM_CLI` manifest handling (RunSetDiscovery): iterate the lines
of `to_process_main.txt`, take each line's two-character prefix as the run
identifier, and accumulate `os.path.join(workingDir, "run" + cur_nifii)`. -/
def session_CLI_inputFolders (workingDir : String) (manifest : List Char) :
    List String :=
  (splitLines manifest).foldl
    (fun acc line => acc ++ [pjoin workingDir ("run" ++ String.mk (line.take 2))]) []

/-! ### Concrete instances used by witnesses and counterexamples -/

/-- A small `design_template_main.fsf` content containing each rewritten line. -/
def t0W : List Char :=
  ("set feat_files(1) \"X\"\nset fmri(outputdir) \"X\"\nset fmri(st_file) \"X\"\n"
    ++ "set fmri(npts) 0\nset fmri(tr) 0\nset highres_files(1) \"X\"").toList

/-- P6 configuration on which every subprocess succeeds. -/
def cfg6W : P6Cfg :=
  ⟨"/w", "/pd", t0W, fun _ => (0, "120"), fun _ => some "2.000000"⟩

/-- P6 configuration on which run 05's `getNumVolume.sh` exits 1 and every
other subprocess succeeds. -/
def cfg6F : P6Cfg :=
  ⟨"/w", "/pd", t0W,
    fun c => if c = "sh getNumVolume.sh /w/05.nii.gz" then (1, "") else (0, "120"),
    fun _ => some "2.000000"⟩

/-- P6 configuration on which run 05's `getTRDuration.sh` exits 1 and every
other subprocess succeeds (`getNumVolume.sh` prints "120"). -/
def cfg6T : P6Cfg :=
  ⟨"/w", "/pd", t0W,
    fun c => if c = "sh getTRDuration.sh /w/05.nii.gz" then (1, "") else (0, "120"),
    fun _ => some "2.000000"⟩

/-- A manifest line for run 05. -/
def lineW : List Char := "05_run.nii\n".toList

/-- A small `GLM1_template.fsf` content using one named placeholder. -/
def t8W : List Char := "set fmri(npts) {numVolumes}".toList

/-- P8 configuration on which every subprocess succeeds. -/
def cfg8W : P8Cfg := ⟨"/w", t8W, fun _ => (0, "120")⟩

/-- P8 configuration on which run 05's `feat` invocation exits 1 and every
other subprocess succeeds. -/
def cfg8C : P8Cfg :=
  ⟨"/w", t8W,
    fun c => if c = "feat \"/w/run05/block05_GLM1.fsf\"" then (1, "") else (0, "120")⟩

/-- P8 configuration whose template uses a placeholder (`missing`) that the
per-run parameter dict never supplies; every subprocess succeeds. -/
def cfg8M : P8Cfg := ⟨"/w", "npts {missing}".toList, fun _ => (0, "120")⟩

/-- A manifest whose second line is blank. -/
def manifestBlank : List Char := "05_run.nii\n\n12_run.nii\n".toList

/-! ### Helper lemmas -/

theorem run_command_err (o : String → Int × String) (cmd : String) (cap : Bool)
    (h : (o cmd).1 ≠ 0) :
    run_command o cmd cap =
      .error ⟨cmd, (o cmd).1, if cap then some (o cmd).2 else none⟩ := by
  simp [run_command, h]

theorem run_command_ok (o : String → Int × String) (cmd : String) (cap : Bool)
    (h : (o cmd).1 = 0) :
    run_command o cmd cap =
      .ok ⟨cmd, (o cmd).1, if cap then some (o cmd).2 else none⟩ := by
  simp [run_command, h]

theorem firstOcc_isPrefixOf (key : List Char) :
    ∀ (l : List Char) (i : Nat), firstOcc key l = some i →
      key.isPrefixOf (l.drop i) = true := by
  intro l
  induction l with
  | nil =>
    intro i h
    simp only [firstOcc] at h
    split at h
    · next hp => cases h; simpa using hp
    · cases h
  | cons c rest ih =>
    intro i h
    simp only [firstOcc] at h
    split at h
    · next hp => cases h; simpa using hp
    · next =>
      rcases Option.map_eq_some'.mp h with ⟨j, hj, rfl⟩
      simpa using ih j hj

theorem firstOcc_min (key : List Char) :
    ∀ (l : List Char) (i : Nat), firstOcc key l = some i →
      ∀ j, j < i → key.isPrefixOf (l.drop j) = false := by
  intro l
  induction l with
  | nil =>
    intro i h j hj
    simp only [firstOcc] at h
    split at h
    · cases h; omega
    · cases h
  | cons c rest ih =>
    intro i h j hj
    simp only [firstOcc] at h
    split at h
    · cases h; omega
    · next hp =>
      rcases Option.map_eq_some'.mp h with ⟨j', hj', rfl⟩
      cases j with
      | zero => simpa using Bool.not_eq_true _ |>.mp hp
      | succ k => simpa using ih j' hj' k (by omega)

theorem firstOcc_le (key : List Char) :
    ∀ (l : List Char) (i : Nat), firstOcc key l = some i → i ≤ l.length := by
  intro l
  induction l with
  | nil =>
    intro i h
    simp only [firstOcc] at h
    split at h
    · cases h; simp
    · cases h
  | cons c rest ih =>
    intro i h
    simp only [firstOcc] at h
    split at h
    · cases h; simp
    · next =>
      rcases Option.map_eq_some'.mp h with ⟨j, hj, rfl⟩
      have := ih j hj
      simp; omega

theorem firstOcc_of_isPrefixOf (key l : List Char) (h : key.isPrefixOf l = true) :
    firstOcc key l = some 0 := by
  cases l with
  | nil => simp [firstOcc, h]
  | cons c rest => simp [firstOcc, h]

theorem isPrefixOf_append_congr (key a x y : List Char) (h : key.length ≤ a.length) :
    key.isPrefixOf (a ++ x) = key.isPrefixOf (a ++ y) := by
  rw [Bool.eq_iff_iff, List.isPrefixOf_iff_prefix, List.isPrefixOf_iff_prefix,
    List.prefix_iff_eq_take, List.prefix_iff_eq_take,
    List.take_append_of_le_length h, List.take_append_of_le_length h]

theorem firstOcc_replay (key : List Char) :
    ∀ (pre rest rest' : List Char),
      firstOcc key (pre ++ key ++ rest) = some pre.length →
      firstOcc key (pre ++ key ++ rest') = some pre.length := by
  intro pre
  induction pre with
  | nil =>
    intro rest rest' _
    exact firstOcc_of_isPrefixOf key (key ++ rest')
      (List.isPrefixOf_iff_prefix.mpr (List.prefix_append key rest'))
  | cons c pre' ih =>
    intro rest rest' h
    have hlen : key.length ≤ (c :: (pre' ++ key)).length := by
      simp only [List.length_cons, List.length_append]
      omega
    simp only [List.cons_append, List.append_eq, firstOcc] at h ⊢
    split at h
    · next => simp at h
    · next hp =>
      rcases Option.map_eq_some'.mp h with ⟨j, hj, hlenj⟩
      have hj' : j = pre'.length := by
        simp only [List.length_cons] at hlenj
        omega
      subst hj'
      have hnc : ¬ key.isPrefixOf (c :: ((pre' ++ key) ++ rest')) = true := by
        intro hcp
        apply hp
        have hcongr := isPrefixOf_append_congr key (c :: (pre' ++ key)) rest rest' hlen
        simp only [List.cons_append] at hcongr
        rw [hcongr]
        exact hcp
      rw [if_neg hnc, Option.map_eq_some']
      exact ⟨pre'.length, ih rest rest' hj, by simp⟩

theorem splitAtLastQuote_none_iff (l : List Char) :
    splitAtLastQuote l = none ↔ '"' ∉ l := by
  induction l with
  | nil => simp [splitAtLastQuote]
  | cons c rest ih =>
    cases h : splitAtLastQuote rest with
    | some p =>
      obtain ⟨b, a⟩ := p
      have hin : '"' ∈ rest := by
        by_contra hnot
        simp [ih.mpr hnot] at h
      simp [splitAtLastQuote, h, hin]
    | none =>
      by_cases hc : c = '"'
      · subst hc; simp [splitAtLastQuote, h]
      · simp [splitAtLastQuote, h, hc, ih.mp h, Ne.symm hc]

theorem splitAtLastQuote_eq :
    ∀ (l b a : List Char), splitAtLastQuote l = some (b, a) →
      l = b ++ '"' :: a ∧ '"' ∉ a := by
  intro l
  induction l with
  | nil => intro b a h; simp [splitAtLastQuote] at h
  | cons c rest ih =>
    intro b a h
    simp only [splitAtLastQuote] at h
    cases hr : splitAtLastQuote rest with
    | some p =>
      obtain ⟨b', a'⟩ := p
      rw [hr] at h
      simp at h
      obtain ⟨hb, ha⟩ := h
      obtain ⟨hrest, hna⟩ := ih b' a' hr
      subst hb; subst ha
      exact ⟨by simp [hrest], hna⟩
    | none =>
      rw [hr] at h
      by_cases hc : c = '"'
      · subst hc
        simp at h
        obtain ⟨hb, ha⟩ := h
        subst hb; subst ha
        exact ⟨by simp, (splitAtLastQuote_none_iff rest).mp hr⟩
      · simp [hc] at h

theorem splitAtLastQuote_append (b a : List Char) (ha : '"' ∉ a) :
    splitAtLastQuote (b ++ '"' :: a) = some (b, a) := by
  induction b with
  | nil => simp [splitAtLastQuote, (splitAtLastQuote_none_iff a).mpr ha]
  | cons c b' ih => simp [splitAtLastQuote, ih]

theorem applyRuleLine_spec (r : Rule) (repl line : List Char)
    (h : lineMatches r line = true) :
    ∃ pre cap post, line = pre ++ r.key ++ cap ++ post ∧
      firstOcc r.key line = some pre.length ∧
      applyRuleLine r repl line = pre ++ r.key ++ repl ++ post ∧
      extractLine r line = some cap ∧
      (r.quoted = true → ∃ a, post = '"' :: a ∧ '"' ∉ a) ∧
      (r.quoted = false → post = []) := by
  unfold lineMatches at h
  cases hf : firstOcc r.key line with
  | none => unfold extractLine at h; rw [hf] at h; simp at h
  | some i =>
    have hpre := firstOcc_isPrefixOf r.key line i hf
    have hle := firstOcc_le r.key line i hf
    obtain ⟨t, ht⟩ := List.isPrefixOf_iff_prefix.mp hpre
    have hlineeq : (line.take i ++ r.key) ++ t = line := by
      rw [List.append_assoc, ht, List.take_append_drop]
    have hlen : (line.take i).length = i := List.length_take_of_le hle
    have htdrop : line.drop (i + r.key.length) = t := by
      have h2 : (line.drop i).drop r.key.length = line.drop (i + r.key.length) :=
        List.drop_drop r.key.length i line
      rw [← h2, ← ht, List.drop_left]
    have hfo : some i = some ((line.take i).length) := by rw [hlen]
    cases hq : r.quoted with
    | true =>
      cases hs : splitAtLastQuote (line.drop (i + r.key.length)) with
      | none => exfalso; unfold extractLine at h; rw [hf] at h; simp [hq, hs] at h
      | some p =>
        obtain ⟨b, a⟩ := p
        obtain ⟨hteq, hna⟩ := splitAtLastQuote_eq _ b a hs
        have hteq' : t = b ++ '"' :: a := by rw [← htdrop]; exact hteq
        refine ⟨line.take i, b, '"' :: a, ?_, hfo, ?_, ?_, ?_, ?_⟩
        · calc line = (line.take i ++ r.key) ++ t := hlineeq.symm
            _ = line.take i ++ r.key ++ b ++ '"' :: a := by
                rw [hteq']; simp [List.append_assoc]
        · simp [applyRuleLine, hf, hq, hs]
        · simp [extractLine, hf, hq, hs]
        · intro _; exact ⟨a, rfl, hna⟩
        · intro hcontra; simp at hcontra
    | false =>
      refine ⟨line.take i, t, [], ?_, hfo, ?_, ?_, ?_, ?_⟩
      · rw [List.append_nil]; exact hlineeq.symm
      · simp [applyRuleLine, hf, hq]
      · simp [extractLine, hf, hq, htdrop]
      · intro hcontra; simp at hcontra
      · intro _; rfl

theorem applyRuleLine_not_matches (r : Rule) (repl line : List Char)
    (h : lineMatches r line = false) : applyRuleLine r repl line = line := by
  unfold lineMatches extractLine at h
  unfold applyRuleLine
  cases hf : firstOcc r.key line with
  | none => rfl
  | some i =>
    rw [hf] at h
    cases hq : r.quoted with
    | true =>
      cases hs : splitAtLastQuote (line.drop (i + r.key.length)) with
      | none => simp [hq, hs]
      | some p => rw [hq] at h; simp [hs] at h
    | false => rw [hq] at h; simp at h

theorem extractLine_rewritten (r : Rule) (repl line : List Char)
    (h : lineMatches r line = true) :
    extractLine r (applyRuleLine r repl line) = some repl := by
  obtain ⟨pre, cap, post, hline, hfo, happ, _, hpq, hpu⟩ := applyRuleLine_spec r repl line h
  rw [happ]
  have hassoc : pre ++ r.key ++ repl ++ post = (pre ++ r.key) ++ (repl ++ post) := by
    simp [List.append_assoc]
  rw [hassoc]
  have hfo' : firstOcc r.key ((pre ++ r.key) ++ (repl ++ post)) = some pre.length := by
    apply firstOcc_replay r.key pre (cap ++ post) (repl ++ post)
    rw [hline] at hfo
    have h4 : pre ++ r.key ++ cap ++ post = (pre ++ r.key) ++ (cap ++ post) := by
      simp [List.append_assoc]
    rw [h4] at hfo
    exact hfo
  have hdrop : ((pre ++ r.key) ++ (repl ++ post)).drop (pre.length + r.key.length) =
      repl ++ post := by
    have h3 := List.drop_left (pre ++ r.key) (repl ++ post)
    rw [List.length_append] at h3
    exact h3
  simp only [List.append_assoc] at hfo' hdrop
  cases hq : r.quoted with
  | true =>
    obtain ⟨a, hpost, hna⟩ := hpq hq
    subst hpost
    simp [extractLine, hfo', hq, hdrop, splitAtLastQuote_append repl a hna]
  | false =>
    have hpost := hpu hq
    subst hpost
    rw [List.append_nil] at hfo' hdrop ⊢
    simp [extractLine, hfo', hq, hdrop]

theorem extractLine_none_of_not_matches (r : Rule) (line : List Char)
    (h : lineMatches r line = false) : extractLine r line = none := by
  unfold lineMatches at h
  exact Option.not_isSome_iff_eq_none.mp (by simp [h])

theorem extractDoc_applyRule (r : Rule) (repl : List Char) :
    ∀ (doc : List (List Char)), (∃ l ∈ doc, lineMatches r l = true) →
      extractDoc r (applyRule r repl doc) = some repl := by
  intro doc
  induction doc with
  | nil => intro hm; simp at hm
  | cons l ls ih =>
    intro hm
    by_cases hl : lineMatches r l = true
    · have hrw := extractLine_rewritten r repl l hl
      simp [applyRule, extractDoc, hrw]
    · have hl' : lineMatches r l = false := by
        cases hb : lineMatches r l
        · rfl
        · exact absurd hb hl
      have h1 : applyRuleLine r repl l = l := applyRuleLine_not_matches _ _ _ hl'
      have h2 : extractLine r l = none := extractLine_none_of_not_matches _ _ hl'
      obtain ⟨l', hmem, hl'm⟩ := hm
      have hmem' : l' ∈ ls := by
        rcases List.mem_cons.mp hmem with heq | hmem'
        · exfalso; rw [heq] at hl'm; exact hl hl'm
        · exact hmem'
      simp only [applyRule, List.map_cons, extractDoc, h1, h2]
      exact ih ⟨l', hmem', hl'm⟩

theorem renderItems_missing :
    ∀ (items : List TItem) (params : List (String × String)) (name : String),
      name ∈ items.filterMap (fun i => match i with | .field n => some n | _ => none) →
      lookupParam name params = none →
      ∃ n, renderItems items params = .error (.missingKey n) := by
  intro items
  induction items with
  | nil => intro params name hmem _; simp at hmem
  | cons it rest ih =>
    intro params name hmem hlook
    cases it with
    | lit c =>
      simp only [List.filterMap_cons] at hmem
      obtain ⟨n, hr⟩ := ih params name (by simpa using hmem) hlook
      exact ⟨n, by simp [renderItems, hr, Except.map]⟩
    | field m =>
      by_cases he : m = name
      · subst he
        exact ⟨m, by simp [renderItems, hlook]⟩
      · cases hl : lookupParam m params with
        | none => exact ⟨m, by simp [renderItems, hl]⟩
        | some v =>
          have hmem' : name ∈ rest.filterMap
              (fun i => match i with | .field n => some n | _ => none) := by
            simp only [List.filterMap_cons] at hmem
            simp at hmem
            rcases hmem with heq | hmem'
            · exact absurd heq.symm he
            · simpa using hmem'
          obtain ⟨n, hr⟩ := ih params name hmem' hlook
          exact ⟨n, by simp [renderItems, hl, hr, Except.map]⟩

theorem renderItems_congr :
    ∀ (items : List TItem) (p₁ p₂ : List (String × String)),
      (∀ k, lookupParam k p₁ = lookupParam k p₂) →
      renderItems items p₁ = renderItems items p₂ := by
  intro items
  induction items with
  | nil => intro p₁ p₂ _; rfl
  | cons it rest ih =>
    intro p₁ p₂ hpp
    cases it with
    | lit c => simp only [renderItems, ih p₁ p₂ hpp]
    | field n => simp only [renderItems, hpp n, ih p₁ p₂ hpp]

theorem foldl_append_singleton (f : List Char → String) :
    ∀ (ls : List (List Char)) (acc : List String),
      ls.foldl (fun a l => a ++ [f l]) acc = acc ++ ls.map f := by
  intro ls
  induction ls with
  | nil => intro acc; simp
  | cons l ls ih => intro acc; simp [ih]

theorem p6Step_volFail (cfg : P6Cfg) (line : List Char)
    (h : (cfg.oracle (p6VolCmdOf cfg line)).1 ≠ 0) :
    p6Step cfg line =
      ⟨[.mkdirP (p6BlockDir cfg line),
        .copyFile (p6TemplatePath cfg) (p6BlockDesignPath cfg line),
        .runCmd (p6VolCmdOf cfg line)],
        some (.volCmd ⟨p6VolCmdOf cfg line, (cfg.oracle (p6VolCmdOf cfg line)).1,
          some (cfg.oracle (p6VolCmdOf cfg line)).2⟩),
        cfg.workingDir⟩ := by
  simp only [p6Step, run_command_err cfg.oracle (p6VolCmdOf cfg line) true h]
  simp

theorem p6Step_trFail (cfg : P6Cfg) (line : List Char) (nv : Int)
    (h0 : (cfg.oracle (p6VolCmdOf cfg line)).1 = 0)
    (hp : parsePyInt (cfg.oracle (p6VolCmdOf cfg line)).2 = some nv)
    (hfail : (cfg.oracle (p6TRCmdOf cfg line)).1 ≠ 0) :
    p6Step cfg line =
      ⟨[.mkdirP (p6BlockDir cfg line),
        .copyFile (p6TemplatePath cfg) (p6BlockDesignPath cfg line),
        .runCmd (p6VolCmdOf cfg line), .runCmd (p6TRCmdOf cfg line)],
        some (.trCmd ⟨p6TRCmdOf cfg line, (cfg.oracle (p6TRCmdOf cfg line)).1,
          some (cfg.oracle (p6TRCmdOf cfg line)).2⟩),
        cfg.workingDir⟩ := by
  simp only [p6Step, run_command_ok cfg.oracle (p6VolCmdOf cfg line) true h0,
    run_command_err cfg.oracle (p6TRCmdOf cfg line) true hfail]
  simp [hp]

theorem p8Step_cwd (cfg : P8Cfg) (cwd runDir : String) :
    ((p8Step cfg cwd runDir).err = none → (p8Step cfg cwd runDir).cwdAfter = cwd) ∧
    (∀ p, (p8Step cfg cwd runDir).err = some (.featCmd p) →
      (p8Step cfg cwd runDir).cwdAfter = runDir) := by
  simp only [p8Step]
  split
  · simp
  · split
    · simp
    · split
      · simp
      · split
        · simp
        · simp

theorem p8Step_ok_shape (cfg : P8Cfg) (cwd runDir : String)
    (h : (p8Step cfg cwd runDir).err = none) :
    ∃ doc, (p8Step cfg cwd runDir).events =
      [.runCmd (p8VolCmdOf runDir), .write (p8BlockPath runDir) doc,
       .chdir runDir, .runCmd (p8FeatCmdOf runDir), .chdir cwd] := by
  revert h
  simp only [p8Step]
  split
  · simp
  · split
    · simp
    · split
      · simp
      · split
        · simp
        · intro _
          exact ⟨_, rfl⟩

theorem p8Step_write_only_after_fill (cfg : P8Cfg) (cwd runDir : String)
    (path : String) (cont : List Char)
    (h : Event.write path cont ∈ (p8Step cfg cwd runDir).events) :
    ∃ nv doc,
      fill_in_template cfg.template (p8Params cfg runDir (p8Cur runDir) nv) = .ok doc ∧
      path = p8BlockPath runDir ∧ cont = doc := by
  revert h
  simp only [p8Step]
  split
  · simp
  · split
    · simp
    · next nv hnv =>
      split
      · simp
      · next doc hdoc =>
        split
        · intro h
          simp at h
          exact ⟨nv, doc, hdoc, h.1, h.2⟩
        · intro h
          simp at h
          exact ⟨nv, doc, hdoc, h.1, h.2⟩

theorem p6Step_cwd (cfg : P6Cfg) (line : List Char) :
    ((p6Step cfg line).err = none → (p6Step cfg line).cwdAfter = cfg.workingDir) ∧
    (∀ p, (p6Step cfg line).err = some (.featCmd p) →
      (p6Step cfg line).cwdAfter = p6BlockDir cfg line) := by
  simp only [p6Step]
  split
  · simp
  · split
    · simp
    · split
      · simp
      · split
        · simp
        · split
          · simp
          · split
            · simp
            · simp

theorem p6Step_ok_shape (cfg : P6Cfg) (line : List Char)
    (h : (p6Step cfg line).err = none) :
    ∃ nv cont, (p6Step cfg line).events =
      [.mkdirP (p6BlockDir cfg line),
       .copyFile (p6TemplatePath cfg) (p6BlockDesignPath cfg line),
       .runCmd (p6VolCmdOf cfg line),
       .runCmd (p6TRCmdOf cfg line),
       .write (p6BlockDesignPath cfg line) cont,
       .runCmd (p6SliceCmdOf cfg line nv),
       .chdir (p6BlockDir cfg line),
       .runCmd (p6FeatCmdOf cfg line),
       .chdir cfg.workingDir] := by
  revert h
  simp only [p6Step]
  split
  · simp
  · split
    · simp
    · next nv hnv =>
      split
      · simp
      · split
        · simp
        · next v hv =>
          split
          · simp
          · split
            · simp
            · intro _
              refine ⟨nv, joinLines (applyRule trRule v.toList
                (applyRule nptsRule (toString nv).toList
                  (applyRule stFileRule (pjoin (p6BlockDir cfg line) "slicetimes.txt").toList
                    (applyRule outputdirRule
                      (pjoin (p6BlockDir cfg line)
                        (p6Cur line ++ "-preprocess.feat")).toList
                      (applyRule featFilesRule (p6InputRoot cfg line).toList
                        (p6FsfTemplate cfg)))))), ?_⟩
              simp

theorem p6Loop_append_ok (cfg : P6Cfg) :
    ∀ (pre rest : List (List Char)), (∀ l ∈ pre, (p6Step cfg l).err = none) →
      p6Loop cfg (pre ++ rest) =
        ⟨(p6Loop cfg pre).events ++ (p6Loop cfg rest).events,
          (p6Loop cfg rest).err, (p6Loop cfg rest).cwdAfter⟩ := by
  intro pre
  induction pre with
  | nil => intro rest _; simp [p6Loop]
  | cons l ls ih =>
    intro rest h
    have hl : (p6Step cfg l).err = none := h l (by simp)
    have hls : ∀ x ∈ ls, (p6Step cfg x).err = none := fun x hx => h x (by simp [hx])
    simp only [List.cons_append, p6Loop, hl]
    simp [ih rest hls, List.append_assoc]

/-! ### Claims -/

/-- Claim C5: `run_command` surfaces exit status faithfully: exit status 0
yields success returning the process result (with captured output exactly
when capture was requested), any non-zero status raises an error whose
payload contains that status, and it raises in no other case. -/
theorem claim_C5 (oracle : String → Int × String) (cmd : String) (cap : Bool) :
    ((oracle cmd).1 = 0 →
      run_command oracle cmd cap =
        .ok ⟨cmd, (oracle cmd).1, if cap then some (oracle cmd).2 else none⟩) ∧
    ((oracle cmd).1 ≠ 0 →
      run_command oracle cmd cap =
        .error ⟨cmd, (oracle cmd).1, if cap then some (oracle cmd).2 else none⟩) ∧
    (∀ e, run_command oracle cmd cap = .error e →
      e.returncode = (oracle cmd).1 ∧ (oracle cmd).1 ≠ 0) := by
  refine ⟨run_command_ok oracle cmd cap, run_command_err oracle cmd cap, ?_⟩
  intro e he
  by_cases h : (oracle cmd).1 = 0
  · rw [run_command_ok oracle cmd cap h] at he
    cases he
  · rw [run_command_err oracle cmd cap h] at he
    injection he with h2
    exact ⟨by rw [← h2], h⟩

/-- Witness for C5 at a command exiting with status 2. -/
theorem claim_C5_witness :
    run_command (fun _ => ((2 : Int), "out")) "c" true = .error ⟨"c", 2, some "out"⟩ :=
  (claim_C5 (fun _ => ((2 : Int), "out")) "c" true).2.1 (by decide)

/-- Claim C7: a pattern-rewrite rule whose pattern matches nowhere in the
template returns the template unchanged — a silent no-op, no error. -/
theorem claim_C7 (r : Rule) (repl : List Char) (doc : List (List Char)) :
    (∀ l ∈ doc, lineMatches r l = false) → applyRule r repl doc = doc := by
  induction doc with
  | nil => intro _; rfl
  | cons l ls ih =>
    intro h
    show applyRuleLine r repl l :: applyRule r repl ls = l :: ls
    rw [applyRuleLine_not_matches r repl l (h l (by simp)),
      ih (fun x hx => h x (by simp [hx]))]

/-- Witness for C7 on a document without the `feat_files` line. -/
theorem claim_C7_witness :
    applyRule featFilesRule "/w/05".toList ["ab".toList, "c\"d\"".toList] =
      ["ab".toList, "c\"d\"".toList] :=
  claim_C7 featFilesRule "/w/05".toList ["ab".toList, "c\"d\"".toList] (by decide)

/-- Claim C9: named-placeholder materialization is deterministic in its
inputs: the same template and the same parameter mapping (as a mapping,
regardless of association-list representation) yield byte-identical
outputs, so materializing twice gives the same document. -/
theorem claim_C9 (template : List Char) (p₁ p₂ : List (String × String))
    (h : ∀ k, lookupParam k p₁ = lookupParam k p₂) :
    fill_in_template template p₁ = fill_in_template template p₂ := by
  unfold fill_in_template
  cases hp : parseFmtGo none template with
  | error e => rfl
  | ok items => exact renderItems_congr items p₁ p₂ h

/-- Witness for C9: materializing the same concrete template twice with the
same parameters gives identical output. -/
theorem claim_C9_witness :
    fill_in_template "set fmri(npts) {numVolumes}".toList [("numVolumes", "120")] =
      fill_in_template "set fmri(npts) {numVolumes}".toList [("numVolumes", "120")] :=
  claim_C9 "set fmri(npts) {numVolumes}".toList
    [("numVolumes", "120")] [("numVolumes", "120")] (fun _ => rfl)

/-- Claim C2 (amended): run-set discovery produces exactly one run folder
per manifest line — including blank lines — in file order, each derived
from the (up to) two-character prefix of its line. -/
theorem claim_C2_amended (workingDir : String) (manifest : List Char) :
    session_CLI_inputFolders workingDir manifest =
      (splitLines manifest).map
        (fun l => pjoin workingDir ("run" ++ String.mk (l.take 2))) := by
  unfold session_CLI_inputFolders
  rw [foldl_append_singleton (fun l => pjoin workingDir ("run" ++ String.mk (l.take 2)))]
  simp

/-- Counterexample for C2 as stated: on a manifest whose second line is
blank, discovery produces three run folders (the blank line contributes the
folder "/w/run\n"), not one per non-blank line. -/
theorem claim_C2_counterexample :
    session_CLI_inputFolders "/w" manifestBlank =
      ["/w/run05", "/w/run\n", "/w/run12"] ∧
    (session_CLI_inputFolders "/w" manifestBlank).length ≠
      ((splitLines manifestBlank).filter (fun l => !l.all Char.isWhitespace)).length := by
  constructor
  · decide
  · decide

/-- Claim C3: (1) if the parameter mapping lacks a key for a named
placeholder occurring in the template, materialization raises a
missing-parameter error; (2) when the `session_GLM` per-run step's
materialization fails, the step raises that format error and its only
effect is the derivation helper invocation — no config file is written for
the run; (3) conversely a config write occurs in a step only when
substitution succeeded for all placeholders, and the written file is
exactly the materialized document at the run's config path. -/
theorem claim_C3 :
    (∀ (template : List Char) (params : List (String × String)) (name : String),
      name ∈ placeholdersOf template → lookupParam name params = none →
      ∃ n, fill_in_template template params = .error (FmtErr.missingKey n)) ∧
    (∀ (cfg : P8Cfg) (cwd runDir : String) (pr : CompletedProcess) (nv : Int)
      (e : FmtErr),
      run_command cfg.oracle (p8VolCmdOf runDir) true = .ok pr →
      parsePyInt (pr.stdout.getD "") = some nv →
      fill_in_template cfg.template (p8Params cfg runDir (p8Cur runDir) nv) =
        .error e →
      (p8Step cfg cwd runDir).err = some (.fmt e) ∧
      (p8Step cfg cwd runDir).events = [.runCmd (p8VolCmdOf runDir)]) ∧
    (∀ (cfg : P8Cfg) (cwd runDir path : String) (cont : List Char),
      Event.write path cont ∈ (p8Step cfg cwd runDir).events →
      ∃ nv doc,
        fill_in_template cfg.template (p8Params cfg runDir (p8Cur runDir) nv) = .ok doc ∧
        path = p8BlockPath runDir ∧ cont = doc) := by
  refine ⟨?_, ?_, p8Step_write_only_after_fill⟩
  · intro template params name hmem hlook
    unfold placeholdersOf at hmem
    unfold fill_in_template
    cases hp : parseFmtGo none template with
    | error e => rw [hp] at hmem; simp at hmem
    | ok items =>
      rw [hp] at hmem
      exact renderItems_missing items params name hmem hlook
  · intro cfg cwd runDir pr nv e hrun hparse hfill
    simp only [p8Step, hrun, hparse, hfill]
    simp

/-- Witness for C3: a template whose `foo` placeholder has no key fails
with a missing-key error; a concrete step whose template demands the
unsupplied `missing` key raises the format error with only the helper
invocation as its trace; and a concrete successful step's write event is
the materialized document at the run's config path. -/
theorem claim_C3_witness :
    (∃ n, fill_in_template "set x {foo}".toList [] = .error (FmtErr.missingKey n)) ∧
    ((p8Step cfg8M "/w" "/w/run05").err =
        some (.fmt (FmtErr.missingKey "missing")) ∧
      (p8Step cfg8M "/w" "/w/run05").events = [.runCmd (p8VolCmdOf "/w/run05")]) ∧
    (∃ nv doc, fill_in_template cfg8W.template
        (p8Params cfg8W "/w/run05" (p8Cur "/w/run05") nv) = .ok doc ∧
      "/w/run05/block05_GLM1.fsf" = p8BlockPath "/w/run05" ∧
      "set fmri(npts) 120".toList = doc) :=
  ⟨claim_C3.1 "set x {foo}".toList [] "foo" (by decide) (by decide),
   claim_C3.2.1 cfg8M "/w" "/w/run05" ⟨p8VolCmdOf "/w/run05", 0, some "120"⟩ 120
     (FmtErr.missingKey "missing") (by rfl) (by decide) (by rfl),
   claim_C3.2.2 cfg8W "/w" "/w/run05" "/w/run05/block05_GLM1.fsf"
     "set fmri(npts) 120".toList (by decide)⟩

/-- Claim C8: on a line the pattern matches, the rewrite replaces exactly
the captured value, leaving the text before the key and after the capture
byte-identical; non-matching lines pass through unchanged; and
substituting a value then extracting the value for the same key from the
rewritten document yields the substituted value (round trip). -/
theorem claim_C8 (r : Rule) (repl line : List Char) (doc : List (List Char)) :
    (lineMatches r line = true →
      ∃ pre cap post, line = pre ++ r.key ++ cap ++ post ∧
        applyRuleLine r repl line = pre ++ r.key ++ repl ++ post ∧
        extractLine r line = some cap) ∧
    (lineMatches r line = false → applyRuleLine r repl line = line) ∧
    ((∃ l ∈ doc, lineMatches r l = true) →
      extractDoc r (applyRule r repl doc) = some repl) := by
  refine ⟨?_, applyRuleLine_not_matches r repl line,
    fun hm => extractDoc_applyRule r repl doc hm⟩
  intro h
  obtain ⟨pre, cap, post, h1, _, h3, h4, _, _⟩ := applyRuleLine_spec r repl line h
  exact ⟨pre, cap, post, h1, h3, h4⟩

/-- Witness for C8 on the `feat_files` line of a concrete template. -/
theorem claim_C8_witness :
    (∃ pre cap post,
      "set feat_files(1) \"X\"".toList = pre ++ featFilesRule.key ++ cap ++ post ∧
      applyRuleLine featFilesRule "/w/05".toList "set feat_files(1) \"X\"".toList =
        pre ++ featFilesRule.key ++ "/w/05".toList ++ post ∧
      extractLine featFilesRule "set feat_files(1) \"X\"".toList = some cap) ∧
    extractDoc featFilesRule
      (applyRule featFilesRule "/w/05".toList
        ["ab".toList, "set feat_files(1) \"X\"".toList]) = some "/w/05".toList :=
  ⟨(claim_C8 featFilesRule "/w/05".toList "set feat_files(1) \"X\"".toList []).1
     (by decide),
   (claim_C8 featFilesRule "/w/05".toList "x".toList
      ["ab".toList, "set feat_files(1) \"X\"".toList]).2.2
      ⟨"set feat_files(1) \"X\"".toList, by decide, by decide⟩⟩

/-- Claim C1 (amended): each per-run tool-invocation step restores the
working directory it started from when the step succeeds; when the `feat`
invocation fails, the error propagates with the working directory left at
the run's directory (no restore happens), in both the P8 `session_GLM`
step and the P6 run-loop iteration. -/
theorem claim_C1_amended (cfg8 : P8Cfg) (cwd runDir : String)
    (cfg6 : P6Cfg) (line : List Char) :
    ((p8Step cfg8 cwd runDir).err = none → (p8Step cfg8 cwd runDir).cwdAfter = cwd) ∧
    (∀ p, (p8Step cfg8 cwd runDir).err = some (.featCmd p) →
      (p8Step cfg8 cwd runDir).cwdAfter = runDir) ∧
    ((p6Step cfg6 line).err = none → (p6Step cfg6 line).cwdAfter = cfg6.workingDir) ∧
    (∀ p, (p6Step cfg6 line).err = some (.featCmd p) →
      (p6Step cfg6 line).cwdAfter = p6BlockDir cfg6 line) :=
  ⟨(p8Step_cwd cfg8 cwd runDir).1, (p8Step_cwd cfg8 cwd runDir).2,
   (p6Step_cwd cfg6 line).1, (p6Step_cwd cfg6 line).2⟩

/-- Counterexample for C1 as stated: on a run whose `feat` exits 1, the
step propagates the error with the working directory still at the run
directory, not the directory that was current before the step. -/
theorem claim_C1_counterexample :
    (p8Step cfg8C "/w" "/w/run05").err =
      some (P8Err.featCmd ⟨"feat \"/w/run05/block05_GLM1.fsf\"", 1, some ""⟩) ∧
    (p8Step cfg8C "/w" "/w/run05").cwdAfter ≠ "/w" := by
  constructor
  · decide
  · decide

/-- Witness for C1 (amended): restore on success, and the run directory
left as the working directory on `feat` failure. -/
theorem claim_C1_witness :
    (p8Step cfg8W "/w" "/w/run05").cwdAfter = "/w" ∧
    (p8Step cfg8C "/w" "/w/run05").cwdAfter = "/w/run05" :=
  ⟨(claim_C1_amended cfg8W "/w" "/w/run05" cfg6W lineW).1 (by decide),
   (claim_C1_amended cfg8C "/w" "/w/run05" cfg6W lineW).2.1
     ⟨"feat \"/w/run05/block05_GLM1.fsf\"", 1, some ""⟩ (by decide)⟩

/-- Claim C4: when a run's parameter-derivation helper (`getNumVolume.sh`,
or `getTRDuration.sh` after a successful volume derivation) exits non-zero
(all earlier runs having succeeded), the P6 batch loop raises the command
error carrying that helper invocation, and its whole event trace is the
earlier runs' events followed only by this run's `makedirs`, the verbatim
template copy, and the helper invocations up to and including the failing
one — so no materialized config file is written for the run and neither
this run's nor any later run's `feat` invocation (nor any later event at
all) occurs. -/
theorem claim_C4 (cfg : P6Cfg) (pre : List (List Char)) (l : List Char)
    (post : List (List Char))
    (hpre : ∀ l' ∈ pre, (p6Step cfg l').err = none) :
    ((cfg.oracle (p6VolCmdOf cfg l)).1 ≠ 0 →
      (p6Loop cfg (pre ++ l :: post)).err =
        some (.volCmd ⟨p6VolCmdOf cfg l, (cfg.oracle (p6VolCmdOf cfg l)).1,
          some (cfg.oracle (p6VolCmdOf cfg l)).2⟩) ∧
      (p6Loop cfg (pre ++ l :: post)).events =
        (p6Loop cfg pre).events ++
          [.mkdirP (p6BlockDir cfg l),
           .copyFile (p6TemplatePath cfg) (p6BlockDesignPath cfg l),
           .runCmd (p6VolCmdOf cfg l)]) ∧
    (∀ nv : Int, (cfg.oracle (p6VolCmdOf cfg l)).1 = 0 →
      parsePyInt (cfg.oracle (p6VolCmdOf cfg l)).2 = some nv →
      (cfg.oracle (p6TRCmdOf cfg l)).1 ≠ 0 →
      (p6Loop cfg (pre ++ l :: post)).err =
        some (.trCmd ⟨p6TRCmdOf cfg l, (cfg.oracle (p6TRCmdOf cfg l)).1,
          some (cfg.oracle (p6TRCmdOf cfg l)).2⟩) ∧
      (p6Loop cfg (pre ++ l :: post)).events =
        (p6Loop cfg pre).events ++
          [.mkdirP (p6BlockDir cfg l),
           .copyFile (p6TemplatePath cfg) (p6BlockDesignPath cfg l),
           .runCmd (p6VolCmdOf cfg l), .runCmd (p6TRCmdOf cfg l)]) := by
  rw [p6Loop_append_ok cfg pre (l :: post) hpre]
  constructor
  · intro hfail
    have hstep := p6Step_volFail cfg l hfail
    simp only [p6Loop, hstep]
    constructor <;> simp
  · intro nv h0 hp hfail
    have hstep := p6Step_trFail cfg l nv h0 hp hfail
    simp only [p6Loop, hstep]
    constructor <;> simp

/-- Witness for C4 with an empty prefix of earlier runs: run 05's
`getNumVolume.sh` exiting 1 aborts the batch after exactly the three
pre-failure events, and run 05's `getTRDuration.sh` exiting 1 (volume
derivation having succeeded with "120") aborts it after exactly four. -/
theorem claim_C4_witness :
    ((p6Loop cfg6F ["05_run.nii\n".toList, "12x\n".toList]).err =
      some (.volCmd ⟨p6VolCmdOf cfg6F "05_run.nii\n".toList,
        (cfg6F.oracle (p6VolCmdOf cfg6F "05_run.nii\n".toList)).1,
        some (cfg6F.oracle (p6VolCmdOf cfg6F "05_run.nii\n".toList)).2⟩) ∧
     (p6Loop cfg6F ["05_run.nii\n".toList, "12x\n".toList]).events =
      (p6Loop cfg6F []).events ++
        [.mkdirP (p6BlockDir cfg6F "05_run.nii\n".toList),
         .copyFile (p6TemplatePath cfg6F) (p6BlockDesignPath cfg6F "05_run.nii\n".toList),
         .runCmd (p6VolCmdOf cfg6F "05_run.nii\n".toList)]) ∧
    ((p6Loop cfg6T ["05_run.nii\n".toList, "12x\n".toList]).err =
      some (.trCmd ⟨p6TRCmdOf cfg6T "05_run.nii\n".toList,
        (cfg6T.oracle (p6TRCmdOf cfg6T "05_run.nii\n".toList)).1,
        some (cfg6T.oracle (p6TRCmdOf cfg6T "05_run.nii\n".toList)).2⟩) ∧
     (p6Loop cfg6T ["05_run.nii\n".toList, "12x\n".toList]).events =
      (p6Loop cfg6T []).events ++
        [.mkdirP (p6BlockDir cfg6T "05_run.nii\n".toList),
         .copyFile (p6TemplatePath cfg6T) (p6BlockDesignPath cfg6T "05_run.nii\n".toList),
         .runCmd (p6VolCmdOf cfg6T "05_run.nii\n".toList),
         .runCmd (p6TRCmdOf cfg6T "05_run.nii\n".toList)]) :=
  ⟨(claim_C4 cfg6F [] "05_run.nii\n".toList ["12x\n".toList] (by simp)).1 (by decide),
   (claim_C4 cfg6T [] "05_run.nii\n".toList ["12x\n".toList] (by simp)).2 120
     (by decide) (by decide) (by decide)⟩

/-- Claim C6: in every successful per-run iteration of either driver, the
observable effects are, in order: (P6) make the run directory, copy the
template, run both derivation helpers, write the materialized config to the
run's config path, run the slice-timing helper, change into the run
directory, invoke `feat`, change back; (P8) run the derivation helper,
write the materialized config, change into the run directory, invoke
`feat`, change back — so the derivation commands precede the config write,
which precedes the `feat` invocation. -/
theorem claim_C6 (cfg6 : P6Cfg) (line : List Char)
    (cfg8 : P8Cfg) (cwd runDir : String) :
    ((p6Step cfg6 line).err = none →
      ∃ nv cont, (p6Step cfg6 line).events =
        [.mkdirP (p6BlockDir cfg6 line),
         .copyFile (p6TemplatePath cfg6) (p6BlockDesignPath cfg6 line),
         .runCmd (p6VolCmdOf cfg6 line),
         .runCmd (p6TRCmdOf cfg6 line),
         .write (p6BlockDesignPath cfg6 line) cont,
         .runCmd (p6SliceCmdOf cfg6 line nv),
         .chdir (p6BlockDir cfg6 line),
         .runCmd (p6FeatCmdOf cfg6 line),
         .chdir cfg6.workingDir]) ∧
    ((p8Step cfg8 cwd runDir).err = none →
      ∃ doc, (p8Step cfg8 cwd runDir).events =
        [.runCmd (p8VolCmdOf runDir),
         .write (p8BlockPath runDir) doc,
         .chdir runDir,
         .runCmd (p8FeatCmdOf runDir),
         .chdir cwd]) :=
  ⟨p6Step_ok_shape cfg6 line, p8Step_ok_shape cfg8 cwd runDir⟩

/-- Witness for C6 on concrete all-successful runs of both drivers. -/
theorem claim_C6_witness :
    (∃ nv cont, (p6Step cfg6W lineW).events =
      [.mkdirP (p6BlockDir cfg6W lineW),
       .copyFile (p6TemplatePath cfg6W) (p6BlockDesignPath cfg6W lineW),
       .runCmd (p6VolCmdOf cfg6W lineW),
       .runCmd (p6TRCmdOf cfg6W lineW),
       .write (p6BlockDesignPath cfg6W lineW) cont,
       .runCmd (p6SliceCmdOf cfg6W lineW nv),
       .chdir (p6BlockDir cfg6W lineW),
       .runCmd (p6FeatCmdOf cfg6W lineW),
       .chdir cfg6W.workingDir]) ∧
    (∃ doc, (p8Step cfg8W "/w" "/w/run05").events =
      [.runCmd (p8VolCmdOf "/w/run05"),
       .write (p8BlockPath "/w/run05") doc,
       .chdir "/w/run05",
       .runCmd (p8FeatCmdOf "/w/run05"),
       .chdir "/w"]) :=
  ⟨(claim_C6 cfg6W lineW cfg8W "/w" "/w/run05").1 (by decide),
   (claim_C6 cfg6W lineW cfg8W "/w" "/w/run05").2 (by decide)⟩

/-- Claim C10: before any run is processed, the P6 batch's first effect is
a write back to the batch-level template file itself
(`design_template_main.fsf`, the same path the template was read from),
with the `highres_files` substitution applied, so the shared template file
is mutated in place; moreover, whenever the template contains the
`highres_files` line, the written content carries the structural-image
path as the line's quoted value. -/
theorem claim_C10 (cfg : P6Cfg) (manifest : List Char) :
    (p6Batch cfg manifest).events =
      Event.write (p6TemplatePath cfg) (joinLines (p6FsfTemplate cfg)) ::
        (p6Loop cfg (splitLines manifest)).events ∧
    ((∃ l ∈ splitNl cfg.template0, lineMatches highresRule l = true) →
      extractDoc highresRule (p6FsfTemplate cfg) =
        some (p6HighresRepl cfg).toList) := by
  constructor
  · rfl
  · intro hm
    exact extractDoc_applyRule highresRule (p6HighresRepl cfg).toList
      (splitNl cfg.template0) hm

/-- Witness for C10 on a concrete template containing the `highres_files`
line. -/
theorem claim_C10_witness :
    (p6Batch cfg6W "05_run.nii\n".toList).events =
      Event.write (p6TemplatePath cfg6W) (joinLines (p6FsfTemplate cfg6W)) ::
        (p6Loop cfg6W (splitLines "05_run.nii\n".toList)).events ∧
    extractDoc highresRule (p6FsfTemplate cfg6W) = some (p6HighresRepl cfg6W).toList :=
  ⟨(claim_C10 cfg6W "05_run.nii\n".toList).1,
   (claim_C10 cfg6W "05_run.nii\n".toList).2
     ⟨"set highres_files(1) \"X\"".toList, by decide, by decide⟩⟩
